import Mathlib

/-
Verification development for the FootprintService of trailpack-mongoose
(src/api/services/FootprintService.js).

The service is shallowly embedded: JS values are modelled by the inductive
type Value; a Mongo collection is a list of documents (association lists of
fields); the document store is a named family of collections together with a
fresh-id counter used by insert.  Each service method is translated into a
pure Lean function over this state; every store round trip performed by a
method is also recorded in a trace of Call values, so that theorems can speak
about which store operations a method issues.  Errors are the literal message
strings the source rejects with.

The store primitives themselves (findOne/find/update/remove/save/insert) are
external collaborators of the repository; they are modelled after the store
contract stated in the specification (field-equality filters, a "$in"
operator, result-set limits, update as set-fields on every matching
document).
-/

/-- JS values as they flow through the service: null/undefined, numbers,
strings, arrays, and plain objects (association lists of fields). -/
inductive Value where
  | vnull : Value
  | vnat : Nat → Value
  | vstr : String → Value
  | varr : List Value → Value
  | vobj : List (String × Value) → Value

mutual

/-- Decidable equality on values (structural, mirrors SameValueZero on the
fragment we model). -/
def Value.decEq : (a b : Value) → Decidable (a = b)
  | .vnull, .vnull => isTrue rfl
  | .vnull, .vnat _ => isFalse (fun h => Value.noConfusion h)
  | .vnull, .vstr _ => isFalse (fun h => Value.noConfusion h)
  | .vnull, .varr _ => isFalse (fun h => Value.noConfusion h)
  | .vnull, .vobj _ => isFalse (fun h => Value.noConfusion h)
  | .vnat _, .vnull => isFalse (fun h => Value.noConfusion h)
  | .vnat a, .vnat b =>
      if h : a = b then isTrue (by rw [h]) else
        isFalse (fun he => h (Value.noConfusion he (fun hh => hh)))
  | .vnat _, .vstr _ => isFalse (fun h => Value.noConfusion h)
  | .vnat _, .varr _ => isFalse (fun h => Value.noConfusion h)
  | .vnat _, .vobj _ => isFalse (fun h => Value.noConfusion h)
  | .vstr _, .vnull => isFalse (fun h => Value.noConfusion h)
  | .vstr _, .vnat _ => isFalse (fun h => Value.noConfusion h)
  | .vstr a, .vstr b =>
      if h : a = b then isTrue (by rw [h]) else
        isFalse (fun he => h (Value.noConfusion he (fun hh => hh)))
  | .vstr _, .varr _ => isFalse (fun h => Value.noConfusion h)
  | .vstr _, .vobj _ => isFalse (fun h => Value.noConfusion h)
  | .varr _, .vnull => isFalse (fun h => Value.noConfusion h)
  | .varr _, .vnat _ => isFalse (fun h => Value.noConfusion h)
  | .varr _, .vstr _ => isFalse (fun h => Value.noConfusion h)
  | .varr a, .varr b =>
      match valListDecEq a b with
      | isTrue h => isTrue (by rw [h])
      | isFalse h => isFalse (fun he => h (Value.noConfusion he (fun hh => hh)))
  | .varr _, .vobj _ => isFalse (fun h => Value.noConfusion h)
  | .vobj _, .vnull => isFalse (fun h => Value.noConfusion h)
  | .vobj _, .vnat _ => isFalse (fun h => Value.noConfusion h)
  | .vobj _, .vstr _ => isFalse (fun h => Value.noConfusion h)
  | .vobj _, .varr _ => isFalse (fun h => Value.noConfusion h)
  | .vobj a, .vobj b =>
      match fieldListDecEq a b with
      | isTrue h => isTrue (by rw [h])
      | isFalse h => isFalse (fun he => h (Value.noConfusion he (fun hh => hh)))

/-- Decidable equality on lists of values. -/
def valListDecEq : (a b : List Value) → Decidable (a = b)
  | [], [] => isTrue rfl
  | [], _ :: _ => isFalse (fun h => List.noConfusion h)
  | _ :: _, [] => isFalse (fun h => List.noConfusion h)
  | x :: xs, y :: ys =>
      match Value.decEq x y with
      | isFalse h => isFalse (fun he => h (List.noConfusion he (fun h1 _ => h1)))
      | isTrue h1 =>
          match valListDecEq xs ys with
          | isTrue h2 => isTrue (by rw [h1, h2])
          | isFalse h => isFalse (fun he => h (List.noConfusion he (fun _ h2 => h2)))

/-- Decidable equality on field lists. -/
def fieldListDecEq : (a b : List (String × Value)) → Decidable (a = b)
  | [], [] => isTrue rfl
  | [], _ :: _ => isFalse (fun h => List.noConfusion h)
  | _ :: _, [] => isFalse (fun h => List.noConfusion h)
  | (k1, v1) :: xs, (k2, v2) :: ys =>
      if hk : k1 = k2 then
        match Value.decEq v1 v2 with
        | isFalse h =>
            isFalse (fun he => h (congrArg (fun l => (l.headD ("", .vnull)).2) he))
        | isTrue hv =>
            match fieldListDecEq xs ys with
            | isTrue ht => isTrue (by rw [hk, hv, ht])
            | isFalse h => isFalse (fun he => h (List.noConfusion he (fun _ h2 => h2)))
      else
        isFalse (fun he => hk (congrArg (fun l => (l.headD ("", .vnull)).1) he))

end

instance : DecidableEq Value := Value.decEq

/-- A document (a Mongoose record): an association list of named fields,
one of which is normally the primary key field. -/
abbrev Rec := List (String × Value)

/-- JS truthiness test, negated: the values on which a JS bang test fires.
Our model has no booleans, so the falsy values are null/undefined, 0 and the
empty string.  An empty array or empty object is truthy in JS. -/
def Value.falsy : Value → Bool
  | .vnull => true
  | .vnat 0 => true
  | .vstr "" => true
  | _ => false

/-- Lodash isPlainObject: true exactly on plain objects (not on arrays). -/
def Value.isObj : Value → Bool
  | .vobj _ => true
  | _ => false

/-- Lodash isArray. -/
def Value.isArr : Value → Bool
  | .varr _ => true
  | _ => false

/-- Read an object value as a field list; any other value has no own
enumerable fields. -/
def Value.asFields : Value → List (String × Value)
  | .vobj l => l
  | _ => []

/-- Read an array value as a list; used only where the source has already
tested isArray. -/
def Value.asArr : Value → List Value
  | .varr l => l
  | _ => []

/-- Property access record[k]; a missing field reads as undefined (vnull). -/
def getField : Rec → String → Value
  | [], _ => .vnull
  | (k', v) :: tl, k => if k' = k then v else getField tl k

/-- Property assignment record[k] = v: overwrite in place, or add the field. -/
def setField : Rec → String → Value → Rec
  | [], k, v => [(k, v)]
  | (k', v') :: tl, k, v =>
      if k' = k then (k, v) :: tl else (k', v') :: setField tl k v

/-- Apply an update document to a record: set each given field in order
(the store applies plain update documents as set-field operations). -/
def applyValues (r : Rec) (vals : List (String × Value)) : Rec :=
  vals.foldl (fun acc kv => setField acc kv.1 kv.2) r

/-- One filter condition against one document value: either the "$in"
membership operator, or plain equality. -/
def matchCond (cond dv : Value) : Bool :=
  match cond with
  | .vobj [("$in", .varr l)] => l.any (fun x => decide (x = dv))
  | _ => decide (cond = dv)

/-- A filter document matches a record when every condition matches the
corresponding field. -/
def matchFilter (f : List (String × Value)) (r : Rec) : Bool :=
  f.all (fun kv => matchCond kv.2 (getField r kv.1))

/-- The document store: named collections of records, plus the counter the
insert primitive draws fresh primary keys from. -/
structure Store where
  colls : List (String × List Rec)
  nextId : Nat

/-- The records of one named collection (an unknown collection is empty). -/
def getColl (s : Store) (m : String) : List Rec :=
  match s.colls.find? (fun p => decide (p.1 = m)) with
  | some p => p.2
  | none => []

/-- Replace the records of one named collection.  Collections are only ever
read through getColl, whose first matching binding wins, so the update
prepends a binding. -/
def setColl (s : Store) (m : String) (rs : List Rec) : Store :=
  { s with colls := (m, rs) :: s.colls }

/-- Store primitive findOne with the filter containing the single condition
cond on the primary key field: the first matching record, if any. -/
def findOneStore (s : Store) (m : String) (cond : Value) : Option Rec :=
  (getColl s m).find? (fun r => matchCond cond (getField r "_id"))

/-- Store primitive find by filter, with an optional result-count limit. -/
def findManyStore (s : Store) (m : String) (f : List (String × Value))
    (lim : Option Nat) : List Rec :=
  let l := (getColl s m).filter (fun r => matchFilter f r)
  match lim with
  | some n => l.take n
  | none => l

/-- Store primitive update by filter: set the given fields on every matching
record. -/
def updateStore (s : Store) (m : String) (f : List (String × Value))
    (vals : List (String × Value)) : Store :=
  setColl s m
    ((getColl s m).map (fun r => if matchFilter f r then applyValues r vals else r))

/-- Store primitive remove by filter: delete every matching record. -/
def removeStore (s : Store) (m : String) (f : List (String × Value)) : Store :=
  setColl s m ((getColl s m).filter (fun r => !(matchFilter f r)))

/-- Persisting a loaded and mutated document (record.save()): replace the
stored record carrying the same primary key. -/
def saveStore (s : Store) (m : String) (r0 : Rec) : Store :=
  setColl s m
    ((getColl s m).map
      (fun r => if getField r "_id" = getField r0 "_id" then r0 else r))

/-- Store primitive insert of one document: the fields of the given value,
with a fresh primary key assigned when none is supplied. -/
def insertOne (s : Store) (m : String) (values : Value) : Value × Store :=
  let fs := values.asFields
  if (fs.find? (fun p => decide (p.1 = "_id"))).isSome then
    (.vobj fs, setColl s m (getColl s m ++ [fs]))
  else
    let doc : Rec := ("_id", Value.vnat s.nextId) :: fs
    (.vobj doc,
      { setColl s m (getColl s m ++ [doc]) with nextId := s.nextId + 1 })

/-- Model.create: a batch insert when the values are an array, a single
insert otherwise. -/
def insertStore (s : Store) (m : String) (values : Value) : Value × Store :=
  match values with
  | .varr l =>
      let p := l.foldl
        (fun acc v =>
          let c := insertOne acc.2 m v
          (acc.1 ++ [c.1], c.2))
        (([] : List Value), s)
      (.varr p.1, p.2)
  | _ => insertOne s m values

/-- Schema metadata of one field path: the referenced model name when the
path is a reference (options.ref), and the path instance tag, which is the
string Array exactly for array paths. -/
structure FieldDef where
  ref : Option String
  inst : String

/-- Schema metadata of one model: its field paths (schema.paths). -/
structure ModelSchema where
  paths : List (String × FieldDef)

/-- The model registries the service resolves names against: app.orm and
app.packs.mongoose.orm. -/
structure Registry where
  orm : List (String × ModelSchema)
  packOrm : List (String × ModelSchema)

/-- Service options: the findOne flag forcing single-record semantics, and a
per-call result-count cap. -/
structure Options where
  findOne : Bool := false
  defaultLimit : Option Nat := none

/-- The configuration surface the service reads
(config.footprints.models.options): an optional defaultLimit. -/
structure Config where
  defaultLimit : Option Nat := none

/-- The modelOptions.defaultLimit of the source: lodash defaultsDeep of the
call options over the configured options, so the call options win. -/
def effLimit (cfg : Config) (opts : Options) : Option Nat :=
  match opts.defaultLimit with
  | some n => some n
  | none => cfg.defaultLimit

/-- One store round trip, as recorded in an operation trace. -/
inductive Call where
  | findOne (model : String) (idCond : Value)
  | findMany (model : String) (filter : List (String × Value))
      (limit : Option Nat) (idOnly : Bool)
  | insert (model : String) (values : Value)
  | updateMany (model : String) (filter : List (String × Value)) (values : Value)
  | removeMany (model : String) (filter : List (String × Value))
  | save (model : String) (doc : Rec)

/-- Whether a recorded call is a parent-document save. -/
def Call.isSave : Call → Bool
  | .save _ _ => true
  | _ => false

/-- The model a recorded call is addressed to. -/
def Call.model : Call → String
  | .findOne m _ => m
  | .findMany m _ _ _ => m
  | .insert m _ => m
  | .updateMany m _ _ => m
  | .removeMany m _ => m
  | .save m _ => m

/-- A findOne result as the value the promise resolves to: the record, or
null when nothing matched. -/
def recOpt : Option Rec → Value
  | some r => .vobj r
  | none => .vnull

namespace FootprintService

/-- Source _getModel: app.orm[modelName] || app.packs.mongoose.orm[modelName]. -/
def getModel (reg : Registry) (m : String) : Option ModelSchema :=
  match reg.orm.find? (fun p => decide (p.1 = m)) with
  | some p => some p.2
  | none =>
      match reg.packOrm.find? (fun p => decide (p.1 = m)) with
      | some p => some p.2
      | none => none

/-- Source _getReferenceDefinition: model.schema.paths[field], or null. -/
def getReferenceDefinition (M : ModelSchema) (field : String) : Option FieldDef :=
  match M.paths.find? (fun p => decide (p.1 = field)) with
  | some p => some p.2
  | none => none

/-- Source _getReferenceModelName: the options.ref string of the field
definition, or false when the field is not a resolvable reference. -/
def getReferenceModelName (M : ModelSchema) (field : String) : Option String :=
  match getReferenceDefinition M field with
  | none => none
  | some d => d.ref

end FootprintService

/-- Lodash extend(a, b): the fields of a overridden by the fields of b
(fields of b win on key collision; key sets are merged). -/
def extendF (a b : List (String × Value)) : List (String × Value) :=
  (a.filter (fun p => (b.find? (fun c => decide (c.1 = p.1))).isNone)) ++ b

namespace FootprintService

/-- Source find (lines 81 to 105): single-record semantics via
Model.findOne with the filter on the primary key equal to the whole
criteria value when the criteria is not a plain object or the findOne
option is set; multi-record semantics via Model.find with the configured
defaultLimit otherwise. -/
def find (reg : Registry) (cfg : Config) (modelName : String) (criteria : Value)
    (options : Options) (s : Store) : Except String Value × List Call :=
  match getModel reg modelName with
  | none => (.error "No model found", [])
  | some _ =>
    if !criteria.isObj || options.findOne then
      (.ok (recOpt (findOneStore s modelName criteria)), [.findOne modelName criteria])
    else
      let lim := effLimit cfg options
      (.ok (.varr ((findManyStore s modelName criteria.asFields lim).map .vobj)),
        [.findMany modelName criteria.asFields lim false])

/-- Source create (lines 65 to 71): resolve the model, then delegate to the
insert primitive of the store (Model.create); batch when the values are an
array.  The options argument is accepted and unused, as in the source. -/
def create (reg : Registry) (modelName : String) (values : Value)
    (options : Options) (s : Store) : Except String Value × Store × List Call :=
  match getModel reg modelName with
  | none => (.error "No model found", s, [])
  | some _ =>
    let p := insertStore s modelName values
    (.ok p.1, p.2, [.insert modelName values])

/-- Source update (lines 117 to 147).  Plain-object criteria: select the
primary keys of the matching records (projected to the id field, capped by
the effective defaultLimit), update by the filter on that id set, then
re-read the same id set and return it.  Other criteria: update by primary
key and re-read the single record. -/
def update (reg : Registry) (cfg : Config) (modelName : String)
    (criteria values : Value) (options : Options) (s : Store) :
    Except String Value × Store × List Call :=
  match getModel reg modelName with
  | none => (.error "No model found", s, [])
  | some _ =>
    match criteria with
    | .vobj f =>
        let lim := effLimit cfg options
        let foundIds := (findManyStore s modelName f lim).map
          (fun r => [("_id", getField r "_id")])
        -- Mongoose casts each projected document in the $in list to its
        -- primary key, the path being an id path
        let ids := foundIds.map (fun r => getField r "_id")
        let q : List (String × Value) := [("_id", Value.vobj [("$in", Value.varr ids)])]
        let s' := updateStore s modelName q values.asFields
        let res := findManyStore s' modelName q none
        (.ok (.varr (res.map .vobj)), s',
          [.findMany modelName f lim true, .updateMany modelName q values,
            .findMany modelName q none false])
    | _ =>
        let q : List (String × Value) := [("_id", criteria)]
        let s' := updateStore s modelName q values.asFields
        (.ok (recOpt (findOneStore s' modelName criteria)), s',
          [.updateMany modelName q values, .findOne modelName criteria])

/-- Source destroy (lines 156 to 181).  Plain-object criteria: read the
matching records, then remove by re-issuing the same criteria, and resolve
with the previously read records.  Other criteria: findOne by primary key,
remove by primary key, resolve with the previously read record.  The read
and the removal are separate store round trips with no isolation between
them (specification section 5), so the embedding takes the store seen by
each round trip: s0 at read time, s1 at removal time.  A sequential caller
passes the same store twice. -/
def destroy (reg : Registry) (modelName : String) (criteria : Value)
    (s0 s1 : Store) : Except String Value × Store × List Call :=
  match getModel reg modelName with
  | none => (.error "No model found", s1, [])
  | some _ =>
    match criteria with
    | .vobj f =>
        let records := findManyStore s0 modelName f none
        (.ok (.varr (records.map .vobj)), removeStore s1 modelName f,
          [.findMany modelName f none false, .removeMany modelName f])
    | _ =>
        let record := findOneStore s0 modelName criteria
        (.ok (recOpt record), removeStore s1 modelName [("_id", criteria)],
          [.findOne modelName criteria, .removeMany modelName [("_id", criteria)]])

/-- Source createAssociation (lines 192 to 229): resolve the parent model,
require a truthy parentId, resolve the child reference, load the parent by
primary key, create the child, require a truthy child primary key, then
append (array path) or overwrite (single path) the reference field on the
loaded parent, save the parent and resolve with the created child. -/
def createAssociation (reg : Registry) (cfg : Config) (parentModelName : String)
    (parentId : Value) (childAttributeName : String) (values : Value)
    (options : Options) (s : Store) : Except String Value × Store × List Call :=
  match getModel reg parentModelName with
  | none => (.error "No model found", s, [])
  | some M =>
    if parentId.falsy then (.error "No parentId provided", s, [])
    else
      match getReferenceDefinition M childAttributeName with
      | none => (.error "No such reference exist", s, [])
      | some d =>
        match d.ref with
        | none => (.error "No such reference exist", s, [])
        | some childModelName =>
          match findOneStore s parentModelName parentId with
          | none =>
              (.error "No parent record found", s, [.findOne parentModelName parentId])
          | some record =>
            let cp := create reg childModelName values options s
            match cp.1 with
            | .error e =>
                (.error e, cp.2.1, .findOne parentModelName parentId :: cp.2.2)
            | .ok child =>
              if child.falsy || (getField child.asFields "_id").falsy then
                (.error "No _id for child record", cp.2.1,
                  .findOne parentModelName parentId :: cp.2.2)
              else
                let cid := getField child.asFields "_id"
                -- on a Mongoose array path the stored value is always an
                -- array (it materialises as an empty array when unset), so
                -- push appends; the fallback arm models push on the
                -- initialised empty array
                let r' := setField record childAttributeName
                  (if d.inst = "Array" then
                    (match getField record childAttributeName with
                      | .varr l => .varr (l ++ [cid])
                      | _ => .varr [cid])
                  else cid)
                (.ok child, saveStore cp.2.1 parentModelName r',
                  .findOne parentModelName parentId ::
                    cp.2.2 ++ [.save parentModelName r'])

/-- Source findAssociation (lines 241 to 277): resolve the parent model,
require a truthy parentId, resolve the child reference and additionally
require the child model in app.orm; load the parent record with this.find
on the literal model name User (sic, not on parentModelName); on an empty
(falsy) reference resolve with an empty array without touching the child
model; otherwise query the child model with the id filter built from the
reference value extended by the caller criteria. -/
def findAssociation (reg : Registry) (cfg : Config) (parentModelName : String)
    (parentId : Value) (childAttributeName : String) (criteria : Value)
    (options : Options) (s : Store) : Except String Value × List Call :=
  match getModel reg parentModelName with
  | none => (.error "No model found", [])
  | some M =>
    if parentId.falsy then (.error "No parentId provided", [])
    else
      match getReferenceModelName M childAttributeName with
      | none => (.error "No such reference exist", [])
      | some childModelName =>
        if (reg.orm.find? (fun p => decide (p.1 = childModelName))).isNone then
          (.error "No such reference exist", [])
        else
          let fp := find reg cfg "User" parentId options s
          match fp.1 with
          | .error e => (.error e, fp.2)
          | .ok pv =>
            if pv.falsy then (.error "No parent record found", fp.2)
            else
              let rv := getField pv.asFields childAttributeName
              if rv.falsy then (.ok (.varr []), fp.2)
              else
                let q : List (String × Value) :=
                  if rv.isArr then [("_id", Value.vobj [("$in", rv)])]
                  else [("_id", rv)]
                let fc := find reg cfg childModelName
                  (.vobj (extendF q criteria.asFields)) {} s
                (fc.1, fp.2 ++ fc.2)

/-- Source updateAssociation (lines 289 to 322): resolve the parent model,
require a truthy parentId, resolve the child reference; load the parent by
this.find on parentModelName with findOne forced true; on an empty (falsy)
reference resolve with null; otherwise update the child model by the id
filter built from the reference value extended by the caller criteria.  The
parent is never saved by this operation. -/
def updateAssociation (reg : Registry) (cfg : Config) (parentModelName : String)
    (parentId : Value) (childAttributeName : String) (criteria values : Value)
    (options : Options) (s : Store) : Except String Value × Store × List Call :=
  match getModel reg parentModelName with
  | none => (.error "No model found", s, [])
  | some M =>
    if parentId.falsy then (.error "No parentId provided", s, [])
    else
      match getReferenceModelName M childAttributeName with
      | none => (.error "No such reference exist", s, [])
      | some childModelName =>
        let fp := find reg cfg parentModelName parentId
          { options with findOne := true } s
        match fp.1 with
        | .error e => (.error e, s, fp.2)
        | .ok pv =>
          if pv.falsy then (.error "No parent record found", s, fp.2)
          else
            let rv := getField pv.asFields childAttributeName
            if rv.falsy then (.ok .vnull, s, fp.2)
            else
              let ids := if rv.isArr then rv.asArr else [rv]
              let q := extendF [("_id", Value.vobj [("$in", Value.varr ids)])]
                criteria.asFields
              let up := update reg cfg childModelName (.vobj q) values {} s
              (up.1, up.2.1, fp.2 ++ up.2.2)

/-- Source destroyAssociation (lines 334 to 380): resolve the parent model,
require a truthy parentId, resolve the child reference; load the parent by
this.find on parentModelName.  Array-valued reference: find the child
records matching the caller criteria across the whole child collection,
destroy the children carrying the found ids, remove those ids from the
reference array by lodash difference, save the parent, and resolve with the
mapping of the ids through an arrow function whose braced body is a block
statement, hence with a list of undefined values.  Other reference values:
destroy the child by the raw reference value as criteria, set the reference
field to null, save the parent, and resolve with undefined for the same
reason. -/
def destroyAssociation (reg : Registry) (cfg : Config) (parentModelName : String)
    (parentId : Value) (childAttributeName : String) (criteria : Value)
    (options : Options) (s : Store) : Except String Value × Store × List Call :=
  match getModel reg parentModelName with
  | none => (.error "No model found", s, [])
  | some M =>
    if parentId.falsy then (.error "No parentId provided", s, [])
    else
      match getReferenceModelName M childAttributeName with
      | none => (.error "No such reference exist", s, [])
      | some childModelName =>
        let fp := find reg cfg parentModelName parentId options s
        match fp.1 with
        | .error e => (.error e, s, fp.2)
        | .ok pv =>
          if pv.falsy then (.error "No parent record found", s, fp.2)
          else
            let record := pv.asFields
            let rv := getField record childAttributeName
            if rv.isArr then
              let fc := find reg cfg childModelName criteria options s
              match fc.1 with
              | .error e => (.error e, s, fp.2 ++ fc.2)
              | .ok lv =>
                if lv.falsy then (.ok (.varr []), s, fp.2 ++ fc.2)
                else
                  match lv with
                  | .varr docs =>
                    let ids := docs.map (fun dv => getField dv.asFields "_id")
                    let dp := destroy reg childModelName
                      (.vobj [("_id", Value.vobj [("$in", Value.varr ids)])]) s s
                    match dp.1 with
                    | .error e => (.error e, dp.2.1, fp.2 ++ fc.2 ++ dp.2.2)
                    | .ok _ =>
                      let r' := setField record childAttributeName
                        (.varr (rv.asArr.filter
                          (fun x => !(ids.any (fun y => decide (y = x))))))
                      (.ok (.varr (ids.map (fun _ => Value.vnull))),
                        saveStore dp.2.1 parentModelName r',
                        fp.2 ++ fc.2 ++ dp.2.2 ++ [.save parentModelName r'])
                  | _ =>
                    -- a truthy non-array find result has no map method: the
                    -- chain rejects with the thrown TypeError
                    (.error "TypeError: list.map is not a function", s,
                      fp.2 ++ fc.2)
            else
              let dp := destroy reg childModelName rv s s
              match dp.1 with
              | .error e => (.error e, dp.2.1, fp.2 ++ dp.2.2)
              | .ok _ =>
                let r' := setField record childAttributeName .vnull
                (.ok .vnull, saveStore dp.2.1 parentModelName r',
                  fp.2 ++ dp.2.2 ++ [.save parentModelName r'])

end FootprintService

deriving instance DecidableEq for Call

deriving instance DecidableEq for Except

/- Concrete fixtures used by witnesses and counterexamples. -/

/-- A model schema with no reference paths. -/
def fxTagSchema : ModelSchema := ⟨[]⟩

/-- A parent schema whose tags path is an array of references to Tag. -/
def fxParentSchema : ModelSchema := ⟨[("tags", ⟨some "Tag", "Array"⟩)]⟩

/-- A parent schema whose tag path is a single reference to Tag. -/
def fxParentSchemaS : ModelSchema := ⟨[("tag", ⟨some "Tag", "ObjectID"⟩)]⟩

/-- A self-referencing schema: friends is an array of references to User. -/
def fxUserSchema : ModelSchema := ⟨[("friends", ⟨some "User", "Array"⟩)]⟩

/-- A registry holding the Parent, Tag and User models. -/
def fxReg : Registry := ⟨[("Parent", fxParentSchema), ("Tag", fxTagSchema),
  ("User", fxTagSchema)], []⟩

/-- A registry holding Parent with a single-cardinality reference, and Tag. -/
def fxRegS : Registry := ⟨[("Parent", fxParentSchemaS), ("Tag", fxTagSchema)], []⟩

/-- A registry holding only the self-referencing User model. -/
def fxRegU : Registry := ⟨[("User", fxUserSchema)], []⟩

/-- A registry holding one model named M with no references. -/
def fxRegM : Registry := ⟨[("M", fxTagSchema)], []⟩

/-- An empty configuration (no defaultLimit). -/
def fxCfg : Config := {}

/-- A tag record with the given id, carrying a value field equal to it. -/
def fxTag (n : Nat) : Rec := [("_id", .vnat n), ("value", .vnat n)]

/-- The parent of the specification example: id 1, tags [10, 20, 30]. -/
def fxParent : Rec := [("_id", .vnat 1), ("tags", .varr [.vnat 10, .vnat 20, .vnat 30])]

/-- The store of the specification example for destroyAssociation. -/
def fxStoreB : Store := ⟨[("Parent", [fxParent]),
  ("Tag", [fxTag 10, fxTag 20, fxTag 30])], 100⟩

/-- A store where the Parent collection holds the example parent but the
User collection is empty. -/
def fxStoreA : Store := ⟨[("Parent", [fxParent]),
  ("Tag", [fxTag 10, fxTag 20, fxTag 30]), ("User", [])], 100⟩

/-- A store whose User record carries an empty tags array. -/
def fxStoreC : Store := ⟨[("Parent", []), ("Tag", [fxTag 10]),
  ("User", [[("_id", .vnat 1), ("tags", .varr [])]])], 100⟩

/-- A store whose User record carries a null tags reference. -/
def fxStoreD : Store := ⟨[("User", [[("_id", .vnat 1), ("tags", .vnull)]])], 100⟩

/-- A store whose User record 1 lists itself among its friends. -/
def fxStoreU : Store := ⟨[("User", [[("_id", .vnat 1),
  ("friends", .varr [.vnat 1])]])], 100⟩

/-- A store whose parent record carries a null single-cardinality reference. -/
def fxStoreS : Store := ⟨[("Parent", [[("_id", .vnat 1), ("tag", .vnull)]]),
  ("Tag", [fxTag 10])], 100⟩

/-- The Tag collection as the destroy read round trip sees it. -/
def fxStoreR0 : Store := ⟨[("Tag", [fxTag 10])], 100⟩

/-- The Tag collection as the destroy removal round trip sees it: a second
record, matching the same criteria, has appeared in between. -/
def fxStoreR1 : Store := ⟨[("Tag", [fxTag 10, fxTag 20])], 100⟩

/-- A one-record store for the model M. -/
def fxStoreM : Store := ⟨[("M", [[("_id", .vnat 5)]])], 100⟩

/-- The child record the createAssociation witness creates: fresh id 100. -/
def fxChild : Value := .vobj [("_id", .vnat 100), ("value", .vnat 77)]

/-- The store after inserting the witness child into the Tag collection. -/
def fxStoreB1 : Store := (insertStore fxStoreB "Tag" (.vobj [("value", .vnat 77)])).2

/- Helper lemmas about the store model. -/

theorem getColl_setColl_self (s : Store) (m : String) (rs : List Rec) :
    getColl (setColl s m rs) m = rs := by
  simp [getColl, setColl]

theorem getColl_setColl_other (s : Store) (m m' : String) (rs : List Rec)
    (h : m' ≠ m) : getColl (setColl s m rs) m' = getColl s m' := by
  simp [getColl, setColl, List.find?, Ne.symm h]

theorem getColl_updateStore_other (s : Store) (m m' : String)
    (f vals : List (String × Value)) (h : m' ≠ m) :
    getColl (updateStore s m f vals) m' = getColl s m' :=
  getColl_setColl_other _ _ _ _ h

theorem getColl_removeStore_other (s : Store) (m m' : String)
    (f : List (String × Value)) (h : m' ≠ m) :
    getColl (removeStore s m f) m' = getColl s m' :=
  getColl_setColl_other _ _ _ _ h

theorem getColl_saveStore_other (s : Store) (m m' : String) (r0 : Rec)
    (h : m' ≠ m) : getColl (saveStore s m r0) m' = getColl s m' :=
  getColl_setColl_other _ _ _ _ h

theorem getField_setField_ne :
    ∀ (r : Rec) (k k2 : String) (v : Value), k ≠ k2 →
      getField (setField r k v) k2 = getField r k2 := by
  intro r
  induction r with
  | nil => intro k k2 v h; simp [setField, getField, h]
  | cons kv tl ih =>
      obtain ⟨k1, v1⟩ := kv
      intro k k2 v h
      by_cases h1 : k1 = k
      · subst h1
        simp [setField, getField, h, Ne.symm h]
      · by_cases h2 : k1 = k2
        · subst h2
          simp [setField, getField, h1]
        · simp [setField, getField, h1, h2, ih _ _ _ h]

theorem getField_applyValues_ne (vals : List (String × Value)) :
    ∀ (r : Rec) (k : String), (∀ p ∈ vals, p.1 ≠ k) →
      getField (applyValues r vals) k = getField r k := by
  induction vals with
  | nil => intro r k _; rfl
  | cons kv tl ih =>
      intro r k h
      have h1 : kv.1 ≠ k := h kv (by simp)
      have h2 : ∀ p ∈ tl, p.1 ≠ k := fun p hp => h p (by simp [hp])
      have : applyValues r (kv :: tl) = applyValues (setField r kv.1 kv.2) tl := rfl
      rw [this, ih _ _ h2, getField_setField_ne _ _ _ _ h1]

theorem matchFilter_idin (ids : List Value) (r : Rec) :
    matchFilter [("_id", .vobj [("$in", .varr ids)])] r
      = ids.any (fun x => decide (x = getField r "_id")) := by
  simp [matchFilter, matchCond]

theorem findManyStore_sublist (s : Store) (m : String)
    (f : List (String × Value)) (lim : Option Nat) :
    List.Sublist (findManyStore s m f lim) (getColl s m) := by
  unfold findManyStore
  cases lim with
  | none => exact List.filter_sublist _
  | some n => exact (List.take_sublist _ _).trans (List.filter_sublist _)

theorem filter_ids_eq_of_sublist {l sub : List Rec} (h : List.Sublist sub l)
    (hn : ((l.map (fun r => getField r "_id")).Nodup)) :
    l.filter (fun r => (sub.map (fun r2 => getField r2 "_id")).any
      (fun x => decide (x = getField r "_id"))) = sub := by
  induction h with
  | slnil => rfl
  | @cons l1 l2 a h ih =>
      rw [List.map_cons, List.nodup_cons] at hn
      have hna : getField a "_id" ∉ l2.map (fun r => getField r "_id") := hn.1
      have hpa : (l1.map (fun r2 => getField r2 "_id")).any
          (fun x => decide (x = getField a "_id")) = false := by
        rw [List.any_eq_false]
        intro x hx
        simp only [decide_eq_true_eq]
        intro hxa
        exact hna (hxa ▸ ((h.map (fun r => getField r "_id")).subset hx))
      rw [List.filter_cons_of_neg (by simp [hpa]), ih hn.2]
  | @cons₂ l1 l2 a h ih =>
      rw [List.map_cons, List.nodup_cons] at hn
      have hna : getField a "_id" ∉ l2.map (fun r => getField r "_id") := hn.1
      have hpa : ((a :: l1).map (fun r2 => getField r2 "_id")).any
          (fun x => decide (x = getField a "_id")) = true := by
        simp
      rw [List.filter_cons, if_pos hpa]
      congr 1
      rw [List.filter_congr (q := fun r => (l1.map (fun r2 => getField r2 "_id")).any
        (fun x => decide (x = getField r "_id")))]
      · exact ih hn.2
      · intro r hr
        have hne : getField a "_id" ≠ getField r "_id" := by
          intro hco
          exact hna (hco ▸ List.mem_map_of_mem (fun r => getField r "_id") hr)
        simp [hne]

/-- C1 (amended): for a criteria value that is not a plain object, adding
the findOne option changes nothing: find issues the same single-record
query and resolves with the same result. -/
theorem C1_find_scalar_findOne_equiv
    (reg : Registry) (cfg : Config) (m : String) (v : Value) (opts : Options)
    (s : Store) (h : v.isObj = false) :
    FootprintService.find reg cfg m v opts s =
      FootprintService.find reg cfg m v { opts with findOne := true } s := by
  unfold FootprintService.find
  cases hM : FootprintService.getModel reg m with
  | none => rfl
  | some M => simp [h]

/-- Witness for C1: the scalar id 5 on the one-record store. -/
theorem C1_find_scalar_findOne_equiv_witness :
    (Value.vnat 5).isObj = false ∧
      FootprintService.find fxRegM fxCfg "M" (.vnat 5) {} fxStoreM =
        FootprintService.find fxRegM fxCfg "M" (.vnat 5) { findOne := true } fxStoreM :=
  ⟨rfl, C1_find_scalar_findOne_equiv fxRegM fxCfg "M" (.vnat 5) {} fxStoreM rfl⟩

/-- C1 counterexample: on a store holding the single record with primary
key 5, find with the bare scalar 5 resolves with the record, while find
with the filter on the primary key equal to 5 plus the findOne option
issues the nested query findOne with the whole filter as the primary key
value and resolves with null: the two calls differ in query and result. -/
theorem C1_counterexample :
    FootprintService.find fxRegM fxCfg "M" (.vnat 5) {} fxStoreM ≠
      FootprintService.find fxRegM fxCfg "M" (.vobj [("_id", .vnat 5)])
        { findOne := true } fxStoreM := by
  decide

/-- C2: findAssociation loads the parent from the hard-coded model name
User: on a store whose Parent collection holds the parent record with
primary key 1 but whose User collection is empty, the call fails with the
parent-record-not-found error and its only store round trip is a findOne
against User, although the parent record exists in its own collection. -/
theorem C2_findAssociation_loads_hardcoded_User_model :
    FootprintService.findAssociation fxReg fxCfg "Parent" (.vnat 1) "tags"
        (.vobj []) {} fxStoreA =
      (.error "No parent record found", [.findOne "User" (.vnat 1)]) ∧
    findOneStore fxStoreA "Parent" (.vnat 1) = some fxParent := by
  exact ⟨rfl, rfl⟩

/-- C6: for a model name that resolves in neither registry, each of the
eight public operations rejects with the model-not-found error, leaves the
store untouched and performs no store round trip at all. -/
theorem C6_unknown_model_rejects_without_store_call
    (reg : Registry) (cfg : Config) (n : String)
    (criteria values parentId : Value) (attr : String) (opts : Options)
    (s s1 : Store)
    (hM : FootprintService.getModel reg n = none) :
    FootprintService.create reg n values opts s = (.error "No model found", s, []) ∧
    FootprintService.find reg cfg n criteria opts s = (.error "No model found", []) ∧
    FootprintService.update reg cfg n criteria values opts s =
      (.error "No model found", s, []) ∧
    FootprintService.destroy reg n criteria s s1 = (.error "No model found", s1, []) ∧
    FootprintService.createAssociation reg cfg n parentId attr values opts s =
      (.error "No model found", s, []) ∧
    FootprintService.findAssociation reg cfg n parentId attr criteria opts s =
      (.error "No model found", []) ∧
    FootprintService.updateAssociation reg cfg n parentId attr criteria values opts s =
      (.error "No model found", s, []) ∧
    FootprintService.destroyAssociation reg cfg n parentId attr criteria opts s =
      (.error "No model found", s, []) := by
  refine ⟨?_, ?_, ?_, ?_, ?_, ?_, ?_, ?_⟩ <;>
    simp [FootprintService.create, FootprintService.find, FootprintService.update,
      FootprintService.destroy, FootprintService.createAssociation,
      FootprintService.findAssociation, FootprintService.updateAssociation,
      FootprintService.destroyAssociation, hM]

/-- Witness for C6: the name Nope resolves in neither registry of fxRegM. -/
theorem C6_unknown_model_rejects_without_store_call_witness :
    FootprintService.getModel fxRegM "Nope" = none ∧
      (FootprintService.create fxRegM "Nope" (.vobj []) {} fxStoreM =
        (.error "No model found", fxStoreM, []) ∧
      FootprintService.find fxRegM fxCfg "Nope" (.vobj []) {} fxStoreM =
        (.error "No model found", []) ∧
      FootprintService.update fxRegM fxCfg "Nope" (.vobj []) (.vobj []) {} fxStoreM =
        (.error "No model found", fxStoreM, []) ∧
      FootprintService.destroy fxRegM "Nope" (.vobj []) fxStoreM fxStoreM =
        (.error "No model found", fxStoreM, []) ∧
      FootprintService.createAssociation fxRegM fxCfg "Nope" (.vnat 1) "tags"
          (.vobj []) {} fxStoreM = (.error "No model found", fxStoreM, []) ∧
      FootprintService.findAssociation fxRegM fxCfg "Nope" (.vnat 1) "tags"
          (.vobj []) {} fxStoreM = (.error "No model found", []) ∧
      FootprintService.updateAssociation fxRegM fxCfg "Nope" (.vnat 1) "tags"
          (.vobj []) (.vobj []) {} fxStoreM = (.error "No model found", fxStoreM, []) ∧
      FootprintService.destroyAssociation fxRegM fxCfg "Nope" (.vnat 1) "tags"
          (.vobj []) {} fxStoreM = (.error "No model found", fxStoreM, [])) :=
  ⟨rfl, C6_unknown_model_rejects_without_store_call fxRegM fxCfg "Nope"
    (.vobj []) (.vobj []) (.vnat 1) "tags" {} fxStoreM fxStoreM rfl⟩

/-- C3 counterexample: destroy with the criteria on value 20 reads an empty
result from the read-time store (which holds only tag 10), yet the record
with value 20 — present and matching at removal time — is removed, because
the removal re-issues the criteria instead of using the ids of the read
set.  A record matched at removal time but absent from the read set is
removed, contradicting the claim. -/
theorem C3_counterexample :
    (FootprintService.destroy fxReg "Tag" (.vobj [("value", .vnat 20)])
        fxStoreR0 fxStoreR1).1 = .ok (.varr []) ∧
    matchFilter [("value", .vnat 20)] (fxTag 20) = true ∧
    fxTag 20 ∈ getColl fxStoreR1 "Tag" ∧
    getColl (FootprintService.destroy fxReg "Tag" (.vobj [("value", .vnat 20)])
        fxStoreR0 fxStoreR1).2.1 "Tag" = [fxTag 10] := by
  exact ⟨rfl, rfl, by decide, rfl⟩

/-- C3 (amended): destroy with a plain-object criteria first reads the
records matching the criteria at read time and resolves with them, then
removes by re-issuing the same criteria, deleting exactly the records
matching the criteria at removal time (under sequential execution, where
both round trips see the same store, this is the same set). -/
theorem C3_destroy_reads_then_removes_by_criteria
    (reg : Registry) (m : String) (f : List (String × Value)) (s0 s1 : Store)
    (M : ModelSchema) (hM : FootprintService.getModel reg m = some M) :
    FootprintService.destroy reg m (.vobj f) s0 s1 =
      (.ok (.varr ((findManyStore s0 m f none).map .vobj)),
        removeStore s1 m f,
        [.findMany m f none false, .removeMany m f]) ∧
    getColl (removeStore s1 m f) m =
      (getColl s1 m).filter (fun r => !(matchFilter f r)) := by
  constructor
  · simp [FootprintService.destroy, hM]
  · exact getColl_setColl_self _ _ _

/-- Witness for C3: the two-snapshot Tag store. -/
theorem C3_destroy_reads_then_removes_by_criteria_witness :
    FootprintService.getModel fxReg "Tag" = some fxTagSchema ∧
      (FootprintService.destroy fxReg "Tag" (.vobj [("value", .vnat 20)])
          fxStoreR0 fxStoreR1 =
        (.ok (.varr ((findManyStore fxStoreR0 "Tag" [("value", .vnat 20)] none).map .vobj)),
          removeStore fxStoreR1 "Tag" [("value", .vnat 20)],
          [.findMany "Tag" [("value", .vnat 20)] none false,
            .removeMany "Tag" [("value", .vnat 20)]]) ∧
      getColl (removeStore fxStoreR1 "Tag" [("value", .vnat 20)]) "Tag" =
        (getColl fxStoreR1 "Tag").filter
          (fun r => !(matchFilter [("value", .vnat 20)] r))) :=
  ⟨rfl, C3_destroy_reads_then_removes_by_criteria fxReg "Tag"
    [("value", .vnat 20)] fxStoreR0 fxStoreR1 fxTagSchema rfl⟩

/-- C4: on the specification example (parent 1 with tags [10, 20, 30],
criteria on value 20), destroyAssociation removes tag 20 from the child
collection and from the parent reference array as claimed, but resolves
with the list of one undefined value — the arrow function mapping the ids
has a braced block body, not an object literal — instead of the removed id
list [20] the claim states. -/
theorem C4_destroyAssociation_example_returns_undefined_list :
    (FootprintService.destroyAssociation fxReg fxCfg "Parent" (.vnat 1) "tags"
        (.vobj [("value", .vnat 20)]) {} fxStoreB).1 = .ok (.varr [.vnull]) ∧
    (.ok (.varr [.vnull]) : Except String Value) ≠ .ok (.varr [.vnat 20]) ∧
    getColl (FootprintService.destroyAssociation fxReg fxCfg "Parent" (.vnat 1) "tags"
        (.vobj [("value", .vnat 20)]) {} fxStoreB).2.1 "Parent" =
      [[("_id", .vnat 1), ("tags", .varr [.vnat 10, .vnat 30])]] ∧
    getColl (FootprintService.destroyAssociation fxReg fxCfg "Parent" (.vnat 1) "tags"
        (.vobj [("value", .vnat 20)]) {} fxStoreB).2.1 "Tag" =
      [fxTag 10, fxTag 30] := by
  exact ⟨rfl, by decide, rfl, rfl⟩

/-- C8 counterexample: the loaded parent record carries an empty tags
array, which is truthy in JS, so the short-circuit does not fire: the call
still resolves with an empty sequence, but it issues a store query against
the child model Tag with the filter on the primary key in the empty list. -/
theorem C8_counterexample :
    getField ((findOneStore fxStoreC "User" (.vnat 1)).getD []) "tags" = .varr [] ∧
    FootprintService.findAssociation fxReg fxCfg "Parent" (.vnat 1) "tags"
        (.vobj []) {} fxStoreC =
      (.ok (.varr []),
        [.findOne "User" (.vnat 1),
          .findMany "Tag" [("_id", .vobj [("$in", .varr [])])] none false]) ∧
    Call.findMany "Tag" [("_id", .vobj [("$in", .varr [])])] none false ∈
      (FootprintService.findAssociation fxReg fxCfg "Parent" (.vnat 1) "tags"
        (.vobj []) {} fxStoreC).2 := by
  exact ⟨rfl, rfl, by decide⟩

/-- C9 counterexample: the User model references itself, and user 1 lists
itself among its friends; updateAssociation with values clearing the
friends field succeeds, and afterwards the stored parent record's
reference field has changed from [1] to [], although the operation never
saved the parent: the child update rewrote the parent record. -/
theorem C9_counterexample :
    getField ((getColl fxStoreU "User").headD []) "friends" = .varr [.vnat 1] ∧
    (FootprintService.updateAssociation fxRegU fxCfg "User" (.vnat 1) "friends"
        (.vobj []) (.vobj [("friends", .varr [])]) {} fxStoreU).1 =
      .ok (.varr [.vobj [("_id", .vnat 1), ("friends", .varr [])]]) ∧
    getColl (FootprintService.updateAssociation fxRegU fxCfg "User" (.vnat 1) "friends"
        (.vobj []) (.vobj [("friends", .varr [])]) {} fxStoreU).2.1 "User" =
      [[("_id", .vnat 1), ("friends", .varr [])]] := by
  exact ⟨rfl, rfl, rfl⟩

theorem find_trace_no_save (reg : Registry) (cfg : Config) (m : String)
    (c : Value) (o : Options) (s : Store) :
    ((FootprintService.find reg cfg m c o s).2).all (fun cl => !cl.isSave) = true := by
  rcases hM : FootprintService.getModel reg m with _ | M
  · simp [FootprintService.find, hM]
  · by_cases hc : (!c.isObj || o.findOne) = true
    · simp [FootprintService.find, hM, hc, Call.isSave]
    · simp [FootprintService.find, hM, hc, Call.isSave]

theorem update_trace_no_save (reg : Registry) (cfg : Config) (m : String)
    (criteria values : Value) (opts : Options) (s : Store) :
    ((FootprintService.update reg cfg m criteria values opts s).2.2).all
      (fun cl => !cl.isSave) = true := by
  rcases hM : FootprintService.getModel reg m with _ | M
  · simp [FootprintService.update, hM]
  · rcases criteria with _ | n | st | l | fobj <;>
      simp [FootprintService.update, hM, Call.isSave]

theorem update_frame_other (reg : Registry) (cfg : Config) (m : String)
    (criteria values : Value) (opts : Options) (s : Store) (m' : String)
    (h : m' ≠ m) :
    getColl (FootprintService.update reg cfg m criteria values opts s).2.1 m'
      = getColl s m' := by
  rcases hM : FootprintService.getModel reg m with _ | M
  · simp [FootprintService.update, hM]
  · rcases criteria with _ | n | st | l | fobj <;>
      simp [FootprintService.update, hM] <;>
      exact getColl_setColl_other _ _ _ _ h

theorem falsy_vobj (l : List (String × Value)) : (Value.vobj l).falsy = false := rfl

theorem falsy_vnull : (Value.vnull).falsy = true := rfl

theorem asFields_vobj (l : List (String × Value)) : (Value.vobj l).asFields = l := rfl

theorem isArr_vnull : (Value.vnull).isArr = false := rfl

/-- C8 (amended): when the loaded parent record carries a falsy reference
value (absent or null — not an empty array, which is truthy), the call
resolves with an empty sequence and its only store round trip is the parent
load, which the source addresses to the literal model name User; no store
call names the child model. -/
theorem C8_findAssociation_falsy_reference_short_circuit
    (reg : Registry) (cfg : Config) (pm : String) (parentId : Value)
    (attr : String) (criteria : Value) (opts : Options) (s : Store)
    (M U : ModelSchema) (cm : String) (record : Rec)
    (hM : FootprintService.getModel reg pm = some M)
    (hpid : parentId.falsy = false)
    (hpo : parentId.isObj = false)
    (href : FootprintService.getReferenceModelName M attr = some cm)
    (horm : (reg.orm.find? (fun p => decide (p.1 = cm))).isNone = false)
    (hU : FootprintService.getModel reg "User" = some U)
    (hload : findOneStore s "User" parentId = some record)
    (hrv : (getField record attr).falsy = true) :
    FootprintService.findAssociation reg cfg pm parentId attr criteria opts s =
      (.ok (.varr []), [.findOne "User" parentId]) := by
  simp [FootprintService.findAssociation, FootprintService.find, hM, hpid, hpo,
    href, horm, hU, hload, hrv, recOpt, falsy_vobj, asFields_vobj]

/-- Witness for C8: the User record 1 carries a null tags reference. -/
theorem C8_findAssociation_falsy_reference_short_circuit_witness :
    (getField [("_id", Value.vnat 1), ("tags", Value.vnull)] "tags").falsy = true ∧
      FootprintService.findAssociation fxReg fxCfg "Parent" (.vnat 1) "tags"
          (.vobj []) {} fxStoreD =
        (.ok (.varr []), [.findOne "User" (.vnat 1)]) :=
  ⟨rfl, C8_findAssociation_falsy_reference_short_circuit fxReg fxCfg "Parent"
    (.vnat 1) "tags" (.vobj []) {} fxStoreD fxParentSchema fxTagSchema "Tag"
    [("_id", Value.vnat 1), ("tags", Value.vnull)] rfl rfl rfl rfl rfl rfl rfl rfl⟩

/-- C10: when the loaded parent record carries a non-array falsy reference
(null), destroyAssociation does not short-circuit: it still delegates to
destroy on the child model with the null reference value as the
primary-key criteria (a findOne and a removeMany on the primary key equal
to null), then sets the parent reference field to null and saves the
parent; the resolved value is undefined, the arrow body being a block
statement. -/
theorem C10_destroyAssociation_empty_single_reference_still_destroys
    (reg : Registry) (cfg : Config) (pm : String) (parentId : Value)
    (attr : String) (criteria : Value) (opts : Options) (s : Store)
    (M C : ModelSchema) (cm : String) (record : Rec)
    (hM : FootprintService.getModel reg pm = some M)
    (hpid : parentId.falsy = false)
    (hpo : parentId.isObj = false)
    (href : FootprintService.getReferenceModelName M attr = some cm)
    (hcm : FootprintService.getModel reg cm = some C)
    (hload : findOneStore s pm parentId = some record)
    (hrv : getField record attr = .vnull) :
    FootprintService.destroyAssociation reg cfg pm parentId attr criteria opts s =
      (.ok .vnull,
        saveStore (removeStore s cm [("_id", .vnull)]) pm (setField record attr .vnull),
        [.findOne pm parentId, .findOne cm .vnull,
          .removeMany cm [("_id", .vnull)], .save pm (setField record attr .vnull)]) := by
  simp [FootprintService.destroyAssociation, FootprintService.find,
    FootprintService.destroy, hM, hpid, hpo, href, hcm, hload, hrv, recOpt,
    falsy_vobj, asFields_vobj, isArr_vnull]

/-- Witness for C10: the parent record 1 with a null single-cardinality
tag reference. -/
theorem C10_destroyAssociation_empty_single_reference_still_destroys_witness :
    getField [("_id", Value.vnat 1), ("tag", Value.vnull)] "tag" = .vnull ∧
      FootprintService.destroyAssociation fxRegS fxCfg "Parent" (.vnat 1) "tag"
          (.vobj []) {} fxStoreS =
        (.ok .vnull,
          saveStore (removeStore fxStoreS "Tag" [("_id", .vnull)]) "Parent"
            (setField [("_id", Value.vnat 1), ("tag", Value.vnull)] "tag" .vnull),
          [.findOne "Parent" (.vnat 1), .findOne "Tag" .vnull,
            .removeMany "Tag" [("_id", .vnull)],
            .save "Parent"
              (setField [("_id", Value.vnat 1), ("tag", Value.vnull)] "tag" .vnull)]) :=
  ⟨rfl, C10_destroyAssociation_empty_single_reference_still_destroys fxRegS fxCfg
    "Parent" (.vnat 1) "tag" (.vobj []) {} fxStoreS fxParentSchemaS fxTagSchema
    "Tag" [("_id", Value.vnat 1), ("tag", Value.vnull)] rfl rfl rfl rfl rfl rfl rfl⟩

/-- C9 (amended): updateAssociation never issues a parent save — for every
input its store-call trace holds no save call — and its only write is the
child-model update: every collection other than the child model collection
is left unchanged; consequently the parent collection, and with it the
parent record and its reference field, is unchanged whenever the parent
model differs from the child model.  When the parent model is the child
model itself (a self-referencing field) and the parent record is among the
matched children, the child update rewrites the stored parent record, as
the counterexample shows. -/
theorem C9_updateAssociation_never_saves_parent
    (reg : Registry) (cfg : Config) (pm : String) (parentId : Value)
    (attr : String) (criteria values : Value) (opts : Options) (s : Store)
    (M : ModelSchema) (cm : String)
    (hM : FootprintService.getModel reg pm = some M)
    (href : FootprintService.getReferenceModelName M attr = some cm) :
    ((FootprintService.updateAssociation reg cfg pm parentId attr
        criteria values opts s).2.2).all (fun cl => !cl.isSave) = true ∧
    (∀ m', m' ≠ cm → getColl (FootprintService.updateAssociation reg cfg pm
        parentId attr criteria values opts s).2.1 m' = getColl s m') ∧
    (pm ≠ cm → getColl (FootprintService.updateAssociation reg cfg pm
        parentId attr criteria values opts s).2.1 pm = getColl s pm) := by
  have h2 : ∀ m', m' ≠ cm → getColl (FootprintService.updateAssociation reg cfg pm
      parentId attr criteria values opts s).2.1 m' = getColl s m' := by
    intro m' hm'
    by_cases hpf : parentId.falsy = true
    · simp [FootprintService.updateAssociation, hM, href, hpf]
    · rcases hfp : (FootprintService.find reg cfg pm parentId
          { opts with findOne := true } s).1 with e | pv
      · simp [FootprintService.updateAssociation, hM, href, hpf, hfp]
      · by_cases hpv : pv.falsy = true
        · simp [FootprintService.updateAssociation, hM, href, hpf, hfp, hpv]
        · by_cases hrv : (getField pv.asFields attr).falsy = true
          · simp [FootprintService.updateAssociation, hM, href, hpf, hfp, hpv, hrv]
          · simp only [FootprintService.updateAssociation, hM, href, hpf, hfp,
              hpv, hrv]
            simp only [Bool.false_eq_true, if_false]
            exact update_frame_other _ _ _ _ _ _ _ _ hm'
  have h1 : ((FootprintService.updateAssociation reg cfg pm parentId attr
      criteria values opts s).2.2).all (fun cl => !cl.isSave) = true := by
    by_cases hpf : parentId.falsy = true
    · simp [FootprintService.updateAssociation, hM, href, hpf]
    · rcases hfp : (FootprintService.find reg cfg pm parentId
          { opts with findOne := true } s).1 with e | pv
      · simp [FootprintService.updateAssociation, hM, href, hpf, hfp,
          find_trace_no_save]
      · by_cases hpv : pv.falsy = true
        · simp [FootprintService.updateAssociation, hM, href, hpf, hfp, hpv,
            find_trace_no_save]
        · by_cases hrv : (getField pv.asFields attr).falsy = true
          · simp [FootprintService.updateAssociation, hM, href, hpf, hfp, hpv,
              hrv, find_trace_no_save]
          · simp [FootprintService.updateAssociation, hM, href, hpf, hfp, hpv,
              hrv, List.all_append, find_trace_no_save, update_trace_no_save]
  exact ⟨h1, h2, fun hne => h2 pm hne⟩

/-- Witness for C9: a Parent record with Tag children; no save call is
issued, every collection other than Tag — the Parent collection included —
is untouched. -/
theorem C9_updateAssociation_never_saves_parent_witness :
    FootprintService.getReferenceModelName fxParentSchema "tags" = some "Tag" ∧
      (((FootprintService.updateAssociation fxReg fxCfg "Parent" (.vnat 1)
          "tags" (.vobj []) (.vobj [("value", .vnat 9)]) {} fxStoreB).2.2).all
          (fun cl => !cl.isSave) = true ∧
      (∀ m', m' ≠ "Tag" → getColl (FootprintService.updateAssociation fxReg fxCfg
          "Parent" (.vnat 1) "tags" (.vobj []) (.vobj [("value", .vnat 9)]) {}
          fxStoreB).2.1 m' = getColl fxStoreB m') ∧
      ("Parent" ≠ "Tag" → getColl (FootprintService.updateAssociation fxReg fxCfg
          "Parent" (.vnat 1) "tags" (.vobj []) (.vobj [("value", .vnat 9)]) {}
          fxStoreB).2.1 "Parent" = getColl fxStoreB "Parent")) :=
  ⟨rfl, C9_updateAssociation_never_saves_parent fxReg fxCfg "Parent"
    (.vnat 1) "tags" (.vobj []) (.vobj [("value", .vnat 9)]) {} fxStoreB
    fxParentSchema "Tag" rfl rfl⟩

/-- C7: a successful createAssociation resolves with the created child
record; on an array-cardinality path the saved parent carries the previous
ids with the child id appended at the end, and on a single-cardinality
path the saved parent carries the child id, whatever the prior value. -/
theorem C7_createAssociation_parent_field_append_or_overwrite
    (reg : Registry) (cfg : Config) (pm : String) (parentId : Value)
    (attr : String) (values : Value) (opts : Options) (s s1 : Store)
    (M C : ModelSchema) (d : FieldDef) (cm : String) (record : Rec)
    (child : Value) (prev : List Value)
    (hM : FootprintService.getModel reg pm = some M)
    (hpid : parentId.falsy = false)
    (hdef : FootprintService.getReferenceDefinition M attr = some d)
    (href : d.ref = some cm)
    (hcm : FootprintService.getModel reg cm = some C)
    (hload : findOneStore s pm parentId = some record)
    (hins : insertStore s cm values = (child, s1))
    (hcf : child.falsy = false)
    (hcid : (getField child.asFields "_id").falsy = false) :
    (d.inst = "Array" → getField record attr = .varr prev →
      FootprintService.createAssociation reg cfg pm parentId attr values opts s =
        (.ok child,
          saveStore s1 pm (setField record attr
            (.varr (prev ++ [getField child.asFields "_id"]))),
          [.findOne pm parentId, .insert cm values,
            .save pm (setField record attr
              (.varr (prev ++ [getField child.asFields "_id"])))])) ∧
    (d.inst ≠ "Array" →
      FootprintService.createAssociation reg cfg pm parentId attr values opts s =
        (.ok child,
          saveStore s1 pm (setField record attr (getField child.asFields "_id")),
          [.findOne pm parentId, .insert cm values,
            .save pm (setField record attr (getField child.asFields "_id"))])) := by
  constructor
  · intro hA hprev
    simp [FootprintService.createAssociation, FootprintService.create, hM, hpid,
      hdef, href, hcm, hload, hins, hcf, hcid, hA, hprev]
  · intro hA
    simp [FootprintService.createAssociation, FootprintService.create, hM, hpid,
      hdef, href, hcm, hload, hins, hcf, hcid, hA]

/-- Witness for C7: appending child 100 to the tags array [10, 20, 30]. -/
theorem C7_createAssociation_parent_field_append_or_overwrite_witness :
    FootprintService.getReferenceDefinition fxParentSchema "tags" =
        some ⟨some "Tag", "Array"⟩ ∧
      FootprintService.createAssociation fxReg fxCfg "Parent" (.vnat 1) "tags"
          (.vobj [("value", .vnat 77)]) {} fxStoreB =
        (.ok fxChild,
          saveStore fxStoreB1 "Parent" (setField fxParent "tags"
            (.varr ([.vnat 10, .vnat 20, .vnat 30] ++ [getField fxChild.asFields "_id"]))),
          [.findOne "Parent" (.vnat 1), .insert "Tag" (.vobj [("value", .vnat 77)]),
            .save "Parent" (setField fxParent "tags"
              (.varr ([.vnat 10, .vnat 20, .vnat 30] ++ [getField fxChild.asFields "_id"])))]) :=
  ⟨rfl, (C7_createAssociation_parent_field_append_or_overwrite fxReg fxCfg
      "Parent" (.vnat 1) "tags" (.vobj [("value", .vnat 77)]) {} fxStoreB
      fxStoreB1 fxParentSchema fxTagSchema ⟨some "Tag", "Array"⟩ "Tag" fxParent
      fxChild [.vnat 10, .vnat 20, .vnat 30]
      rfl rfl rfl rfl rfl rfl rfl rfl rfl).1 rfl rfl⟩

theorem getField_single_id (v : Value) : getField [("_id", v)] "_id" = v := by
  simp [getField]

theorem reread_updated_ids (s : Store) (m : String) (vals : List (String × Value))
    (matched : List Rec)
    (hsub : List.Sublist matched (getColl s m))
    (hnodup : ((getColl s m).map (fun r => getField r "_id")).Nodup)
    (hvid : ∀ p ∈ vals, p.1 ≠ "_id") :
    findManyStore (updateStore s m
        [("_id", .vobj [("$in", .varr (matched.map (fun r => getField r "_id")))])] vals)
      m [("_id", .vobj [("$in", .varr (matched.map (fun r => getField r "_id")))])] none
      = matched.map (fun r => applyValues r vals) := by
  have hgid : ∀ r : Rec,
      getField (if matchFilter [("_id", Value.vobj [("$in",
          Value.varr (matched.map (fun r2 => getField r2 "_id")))])] r
        then applyValues r vals else r) "_id" = getField r "_id" := by
    intro r
    by_cases hmr : matchFilter [("_id", Value.vobj [("$in",
        Value.varr (matched.map (fun r2 => getField r2 "_id")))])] r = true
    · rw [if_pos hmr]
      exact getField_applyValues_ne vals r "_id" hvid
    · rw [if_neg hmr]
  have hpw : ∀ r ∈ getColl s m,
      matchFilter [("_id", Value.vobj [("$in",
          Value.varr (matched.map (fun r2 => getField r2 "_id")))])]
        (if matchFilter [("_id", Value.vobj [("$in",
            Value.varr (matched.map (fun r2 => getField r2 "_id")))])] r
          then applyValues r vals else r)
      = (matched.map (fun r2 => getField r2 "_id")).any
          (fun x => decide (x = getField r "_id")) := by
    intro r _
    rw [matchFilter_idin, hgid r]
  have hmm : ∀ r ∈ matched,
      matchFilter [("_id", Value.vobj [("$in",
          Value.varr (matched.map (fun r2 => getField r2 "_id")))])] r = true := by
    intro r hr
    rw [matchFilter_idin, List.any_eq_true]
    exact ⟨getField r "_id", List.mem_map_of_mem _ hr, by simp⟩
  show ((getColl (updateStore s m
      [("_id", Value.vobj [("$in",
        Value.varr (matched.map (fun r => getField r "_id")))])] vals) m).filter
      (fun r => matchFilter [("_id", Value.vobj [("$in",
        Value.varr (matched.map (fun r => getField r "_id")))])] r))
    = matched.map (fun r => applyValues r vals)
  rw [show getColl (updateStore s m
      [("_id", Value.vobj [("$in",
        Value.varr (matched.map (fun r => getField r "_id")))])] vals) m
    = (getColl s m).map (fun r => if matchFilter [("_id", Value.vobj [("$in",
        Value.varr (matched.map (fun r2 => getField r2 "_id")))])] r
      then applyValues r vals else r) from getColl_setColl_self _ _ _]
  rw [List.filter_map]
  simp only [Function.comp_def]
  rw [List.filter_congr hpw]
  rw [filter_ids_eq_of_sublist hsub hnodup]
  exact List.map_congr_left (fun r hr => by rw [if_pos (hmm r hr)])

/-- C5: for a plain-object criteria, update first selects the primary keys
of the records matching the filter (capped by the effective defaultLimit),
applies the update to exactly that fixed id set, then re-reads that same
id set and resolves with exactly those records carrying the new values —
whether or not the new values still match the original filter — provided
the collection carries distinct primary keys and the values do not touch
the primary key field. -/
theorem C5_update_filter_two_phase
    (reg : Registry) (cfg : Config) (m : String) (f : List (String × Value))
    (values : Value) (opts : Options) (s : Store) (M : ModelSchema)
    (hM : FootprintService.getModel reg m = some M)
    (hnodup : ((getColl s m).map (fun r => getField r "_id")).Nodup)
    (hvid : ∀ p ∈ values.asFields, p.1 ≠ "_id") :
    FootprintService.update reg cfg m (.vobj f) values opts s =
      (.ok (.varr (((findManyStore s m f (effLimit cfg opts)).map
            (fun r => applyValues r values.asFields)).map .vobj)),
        updateStore s m
          [("_id", .vobj [("$in", .varr ((findManyStore s m f (effLimit cfg opts)).map
              (fun r => getField r "_id")))])] values.asFields,
        [.findMany m f (effLimit cfg opts) true,
          .updateMany m [("_id", .vobj [("$in",
              .varr ((findManyStore s m f (effLimit cfg opts)).map
                (fun r => getField r "_id")))])] values,
          .findMany m [("_id", .vobj [("$in",
              .varr ((findManyStore s m f (effLimit cfg opts)).map
                (fun r => getField r "_id")))])] none false]) := by
  have hidsimp : ((findManyStore s m f (effLimit cfg opts)).map
      (fun r => ([("_id", getField r "_id")] : Rec))).map (fun r => getField r "_id")
      = (findManyStore s m f (effLimit cfg opts)).map (fun r => getField r "_id") := by
    rw [List.map_map]
    exact List.map_congr_left (fun r _ => getField_single_id _)
  simp only [FootprintService.update, hM]
  rw [hidsimp]
  rw [reread_updated_ids s m values.asFields (findManyStore s m f (effLimit cfg opts))
    (findManyStore_sublist s m f _) hnodup hvid]

/-- Witness for C5: updating the value field of every tag record whose
value is 20; the re-read returns the same record with the new value even
though it no longer matches the original filter. -/
theorem C5_update_filter_two_phase_witness :
    ((getColl fxStoreB "Tag").map (fun r => getField r "_id")).Nodup ∧
      FootprintService.update fxReg fxCfg "Tag" (.vobj [("value", .vnat 20)])
          (.vobj [("value", .vnat 99)]) {} fxStoreB =
        (.ok (.varr (((findManyStore fxStoreB "Tag" [("value", .vnat 20)]
              (effLimit fxCfg {})).map
              (fun r => applyValues r [("value", .vnat 99)])).map .vobj)),
          updateStore fxStoreB "Tag"
            [("_id", .vobj [("$in", .varr ((findManyStore fxStoreB "Tag"
                [("value", .vnat 20)] (effLimit fxCfg {})).map
                (fun r => getField r "_id")))])] [("value", .vnat 99)],
          [.findMany "Tag" [("value", .vnat 20)] (effLimit fxCfg {}) true,
            .updateMany "Tag" [("_id", .vobj [("$in",
                .varr ((findManyStore fxStoreB "Tag" [("value", .vnat 20)]
                  (effLimit fxCfg {})).map (fun r => getField r "_id")))])]
              (.vobj [("value", .vnat 99)]),
            .findMany "Tag" [("_id", .vobj [("$in",
                .varr ((findManyStore fxStoreB "Tag" [("value", .vnat 20)]
                  (effLimit fxCfg {})).map (fun r => getField r "_id")))])]
              none false]) :=
  ⟨by decide, C5_update_filter_two_phase fxReg fxCfg "Tag" [("value", .vnat 20)]
    (.vobj [("value", .vnat 99)]) {} fxStoreB fxTagSchema rfl (by decide)
    (by intro p hp; fin_cases hp; decide)⟩
